import Mathlib

/-!
Verification of the PSX reverb LV2 plugin core (src/psx-reverb.c) against its
design specification.

Embedding conventions:
* C machine integers are `Nat` (unsigned) or `Int` (signed); `uint32_t`
  overflow is modelled with explicit `% 2 ^ 32` exactly where the C code can
  wrap (the `mem` addressing macro, `ceilpower2`, the `x - 1` offsets).
* C `float`/`double` arithmetic is modelled exactly over `ℚ`; IEEE rounding is
  not modelled.  `M_PI` is the exact rational value of the C `double` constant.
* The sample buffer `spu_buffer` is a total map `ℕ → ℚ`; the code only ever
  touches indices below `spu_buffer_count` (proved below).
* Fallible operations return `Option`: `preset_load` yields `none` exactly
  when the C code would read `presets[preset_index]` out of bounds (a
  `preset_index < 0` slips past the `preset_index >= NUM_PRESETS` guard).
-/

/-- Model of `s2f` (psx-reverb.c:159): `(float)(v) / 32768.0f` applied to an `int16_t`. -/
def s2f (v : ℤ) : ℚ := (v : ℚ) / 32768

/-- Reinterpret a raw `uint16_t` preset table entry as the `int16_t` it denotes
when the table row is cast to `PsxReverbPreset` (two's complement). -/
def toInt16 (v : ℕ) : ℤ := if v < 2 ^ 15 then (v : ℤ) else (v : ℤ) - 2 ^ 16

/-- The exact rational value of the C `double` constant `M_PI`
(3.14159265358979311599…, i.e. the IEEE-754 double nearest π). -/
def mPI : ℚ := 884279719003555 / 281474976710656

/-- Model of `alpha2fc` (psx-reverb.c:164): convert an IIR filter constant to a center
frequency. `ℚ` division by zero yields 0, which composed with `fc2alpha`
reproduces the C float behaviour (which passes through infinities) at the
`alpha = 0` and `alpha = 1` corner cases relevant to the preset table; no
claim below depends on the numeric value of the derived IIR coefficient. -/
def alpha2fc (alpha samplerate : ℚ) : ℚ :=
  let dt := 1 / samplerate
  let fc_inv := 2 * mPI * (dt / alpha - dt)
  1 / fc_inv

/-- Model of `fc2alpha` (psx-reverb.c:171): convert a center frequency to an IIR filter
constant. -/
def fc2alpha (fc samplerate : ℚ) : ℚ :=
  let dt := 1 / samplerate
  let rc := 1 / (2 * mPI * fc)
  dt / (rc + dt)

/-- The or-shift cascade inside `ceilpower2` (psx-reverb.c:179-183), applied to
the already-decremented input: smears the most significant set bit into every
lower position. -/
def smear (x : ℕ) : ℕ :=
  let x1 := x ||| x >>> 1
  let x2 := x1 ||| x1 >>> 2
  let x3 := x2 ||| x2 >>> 4
  let x4 := x3 ||| x3 >>> 8
  let x5 := x4 ||| x4 >>> 16
  x5

/-- Model of `ceilpower2` (psx-reverb.c:177-186) on `uint32_t`, with the decrement and
the final increment wrapping modulo `2 ^ 32` exactly as the C code does. -/
def ceilpower2 (x : ℕ) : ℕ :=
  (smear ((x + (2 ^ 32 - 1)) % 2 ^ 32) + 1) % 2 ^ 32

/-- The preset catalog `presets[NUM_PRESETS][0x20]` (psx-reverb.c:547-618):
Room, Studio Small, Studio Medium, Studio Large, Hall, Half Echo, Space Echo,
Chaos Echo, Delay, Off. -/
def presets : List (List ℕ) := [
  [0x007D, 0x005B, 0x6D80, 0x54B8, 0xBED0, 0x0000, 0x0000, 0xBA80,
   0x5800, 0x5300, 0x04D6, 0x0333, 0x03F0, 0x0227, 0x0374, 0x01EF,
   0x0334, 0x01B5, 0x0000, 0x0000, 0x0000, 0x0000, 0x0000, 0x0000,
   0x0000, 0x0000, 0x01B4, 0x0136, 0x00B8, 0x005C, 0x8000, 0x8000],
  [0x0033, 0x0025, 0x70F0, 0x4FA8, 0xBCE0, 0x4410, 0xC0F0, 0x9C00,
   0x5280, 0x4EC0, 0x03E4, 0x031B, 0x03A4, 0x02AF, 0x0372, 0x0266,
   0x031C, 0x025D, 0x025C, 0x018E, 0x022F, 0x0135, 0x01D2, 0x00B7,
   0x018F, 0x00B5, 0x00B4, 0x0080, 0x004C, 0x0026, 0x8000, 0x8000],
  [0x00B1, 0x007F, 0x70F0, 0x4FA8, 0xBCE0, 0x4510, 0xBEF0, 0xB4C0,
   0x5280, 0x4EC0, 0x0904, 0x076B, 0x0824, 0x065F, 0x07A2, 0x0616,
   0x076C, 0x05ED, 0x05EC, 0x042E, 0x050F, 0x0305, 0x0462, 0x02B7,
   0x042F, 0x0265, 0x0264, 0x01B2, 0x0100, 0x0080, 0x8000, 0x8000],
  [0x00E3, 0x00A9, 0x6F60, 0x4FA8, 0xBCE0, 0x4510, 0xBEF0, 0xA680,
   0x5680, 0x52C0, 0x0DFB, 0x0B58, 0x0D09, 0x0A3C, 0x0BD9, 0x0973,
   0x0B59, 0x08DA, 0x08D9, 0x05E9, 0x07EC, 0x04B0, 0x06EF, 0x03D2,
   0x05EA, 0x031D, 0x031C, 0x0238, 0x0154, 0x00AA, 0x8000, 0x8000],
  [0x01A5, 0x0139, 0x6000, 0x5000, 0x4C00, 0xB800, 0xBC00, 0xC000,
   0x6000, 0x5C00, 0x15BA, 0x11BB, 0x14C2, 0x10BD, 0x11BC, 0x0DC1,
   0x11C0, 0x0DC3, 0x0DC0, 0x09C1, 0x0BC4, 0x07C1, 0x0A00, 0x06CD,
   0x09C2, 0x05C1, 0x05C0, 0x041A, 0x0274, 0x013A, 0x8000, 0x8000],
  [0x0017, 0x0013, 0x70F0, 0x4FA8, 0xBCE0, 0x4510, 0xBEF0, 0x8500,
   0x5F80, 0x54C0, 0x0371, 0x02AF, 0x02E5, 0x01DF, 0x02B0, 0x01D7,
   0x0358, 0x026A, 0x01D6, 0x011E, 0x012D, 0x00B1, 0x011F, 0x0059,
   0x01A0, 0x00E3, 0x0058, 0x0040, 0x0028, 0x0014, 0x8000, 0x8000],
  [0x033D, 0x0231, 0x7E00, 0x5000, 0xB400, 0xB000, 0x4C00, 0xB000,
   0x6000, 0x5400, 0x1ED6, 0x1A31, 0x1D14, 0x183B, 0x1BC2, 0x16B2,
   0x1A32, 0x15EF, 0x15EE, 0x1055, 0x1334, 0x0F2D, 0x11F6, 0x0C5D,
   0x1056, 0x0AE1, 0x0AE0, 0x07A2, 0x0464, 0x0232, 0x8000, 0x8000],
  [0x0001, 0x0001, 0x7FFF, 0x7FFF, 0x0000, 0x0000, 0x0000, 0x8100,
   0x0000, 0x0000, 0x1FFF, 0x0FFF, 0x1005, 0x0005, 0x0000, 0x0000,
   0x1005, 0x0005, 0x0000, 0x0000, 0x0000, 0x0000, 0x0000, 0x0000,
   0x0000, 0x0000, 0x1004, 0x1002, 0x0004, 0x0002, 0x8000, 0x8000],
  [0x0001, 0x0001, 0x7FFF, 0x7FFF, 0x0000, 0x0000, 0x0000, 0x0000,
   0x0000, 0x0000, 0x1FFF, 0x0FFF, 0x1005, 0x0005, 0x0000, 0x0000,
   0x1005, 0x0005, 0x0000, 0x0000, 0x0000, 0x0000, 0x0000, 0x0000,
   0x0000, 0x0000, 0x1004, 0x1002, 0x0004, 0x0002, 0x8000, 0x8000],
  [0x0000, 0x0000, 0x0000, 0x0000, 0x0000, 0x0000, 0x0000, 0x0000,
   0x0000, 0x0000, 0x0001, 0x0001, 0x0001, 0x0001, 0x0001, 0x0001,
   0x0000, 0x0000, 0x0001, 0x0001, 0x0001, 0x0001, 0x0001, 0x0001,
   0x0000, 0x0000, 0x0001, 0x0001, 0x0001, 0x0001, 0x0000, 0x0000]]

/-- Raw register `i` of preset row `p`. -/
def presetReg (p i : ℕ) : ℕ := (presets.getD p []).getD i 0

/-- Layout `PsxReverbPreset` (psx-reverb.c:462-495): the fixed register layout of one
preset row; `uint16_t` registers as `ℕ`, `int16_t` registers as `ℤ`. -/
structure PsxReverbPreset where
  dAPF1 : ℕ
  dAPF2 : ℕ
  vIIR : ℤ
  vCOMB1 : ℤ
  vCOMB2 : ℤ
  vCOMB3 : ℤ
  vCOMB4 : ℤ
  vWALL : ℤ
  vAPF1 : ℤ
  vAPF2 : ℤ
  mLSAME : ℕ
  mRSAME : ℕ
  mLCOMB1 : ℕ
  mRCOMB1 : ℕ
  mLCOMB2 : ℕ
  mRCOMB2 : ℕ
  dLSAME : ℕ
  dRSAME : ℕ
  mLDIFF : ℕ
  mRDIFF : ℕ
  mLCOMB3 : ℕ
  mRCOMB3 : ℕ
  mLCOMB4 : ℕ
  mRCOMB4 : ℕ
  dLDIFF : ℕ
  dRDIFF : ℕ
  mLAPF1 : ℕ
  mRAPF1 : ℕ
  mLAPF2 : ℕ
  mRAPF2 : ℕ
  vLIN : ℤ
  vRIN : ℤ

/-- The cast `(PsxReverbPreset *)&presets[i]` (psx-reverb.c:508): field `k` of
the struct is register `k` of the row, signed fields reinterpreted. -/
def decodePreset (p : ℕ) : PsxReverbPreset where
  dAPF1 := presetReg p 0
  dAPF2 := presetReg p 1
  vIIR := toInt16 (presetReg p 2)
  vCOMB1 := toInt16 (presetReg p 3)
  vCOMB2 := toInt16 (presetReg p 4)
  vCOMB3 := toInt16 (presetReg p 5)
  vCOMB4 := toInt16 (presetReg p 6)
  vWALL := toInt16 (presetReg p 7)
  vAPF1 := toInt16 (presetReg p 8)
  vAPF2 := toInt16 (presetReg p 9)
  mLSAME := presetReg p 10
  mRSAME := presetReg p 11
  mLCOMB1 := presetReg p 12
  mRCOMB1 := presetReg p 13
  mLCOMB2 := presetReg p 14
  mRCOMB2 := presetReg p 15
  dLSAME := presetReg p 16
  dRSAME := presetReg p 17
  mLDIFF := presetReg p 18
  mRDIFF := presetReg p 19
  mLCOMB3 := presetReg p 20
  mRCOMB3 := presetReg p 21
  mLCOMB4 := presetReg p 22
  mRCOMB4 := presetReg p 23
  dLDIFF := presetReg p 24
  dRDIFF := presetReg p 25
  mLAPF1 := presetReg p 26
  mRAPF1 := presetReg p 27
  mLAPF2 := presetReg p 28
  mRAPF2 := presetReg p 29
  vLIN := toInt16 (presetReg p 30)
  vRIN := toInt16 (presetReg p 31)

/-- The converted reverb parameters stored in `PsxReverb` (psx-reverb.c:105-136). -/
structure RuntimeParams where
  dAPF1 : ℕ
  dAPF2 : ℕ
  vIIR : ℚ
  vCOMB1 : ℚ
  vCOMB2 : ℚ
  vCOMB3 : ℚ
  vCOMB4 : ℚ
  vWALL : ℚ
  vAPF1 : ℚ
  vAPF2 : ℚ
  mLSAME : ℕ
  mRSAME : ℕ
  mLCOMB1 : ℕ
  mRCOMB1 : ℕ
  mLCOMB2 : ℕ
  mRCOMB2 : ℕ
  dLSAME : ℕ
  dRSAME : ℕ
  mLDIFF : ℕ
  mRDIFF : ℕ
  mLCOMB3 : ℕ
  mRCOMB3 : ℕ
  mLCOMB4 : ℕ
  mRCOMB4 : ℕ
  dLDIFF : ℕ
  dRDIFF : ℕ
  mLAPF1 : ℕ
  mRAPF1 : ℕ
  mLAPF2 : ℕ
  mRAPF2 : ℕ
  vLIN : ℚ
  vRIN : ℚ

/-- Model of `(uint32_t)((reg << 2) * stretch_factor)` (psx-reverb.c:510 etc.): the
truncating cast of the non-negative product is `Nat.floor`.  (The cast is
defined C behaviour as long as the product is below `2 ^ 32`, which holds for
every table register at every realistic sample rate.) -/
def scaleOff (reg : ℕ) (stretch : ℚ) : ℕ := ⌊((reg <<< 2 : ℕ) : ℚ) * stretch⌋₊

/-- The parameter derivation performed by the valid-index branch of
`preset_load` (psx-reverb.c:506-542). -/
def psxDerive (p : ℕ) (rate : ℚ) : RuntimeParams :=
  let stretch_factor := rate / 22050
  let pr := decodePreset p
  { dAPF1 := scaleOff pr.dAPF1 stretch_factor
    dAPF2 := scaleOff pr.dAPF2 stretch_factor
    vIIR := fc2alpha (alpha2fc (s2f pr.vIIR) 22050) rate
    vCOMB1 := s2f pr.vCOMB1
    vCOMB2 := s2f pr.vCOMB2
    vCOMB3 := s2f pr.vCOMB3
    vCOMB4 := s2f pr.vCOMB4
    vWALL := s2f pr.vWALL
    vAPF1 := s2f pr.vAPF1
    vAPF2 := s2f pr.vAPF2
    mLSAME := scaleOff pr.mLSAME stretch_factor
    mRSAME := scaleOff pr.mRSAME stretch_factor
    mLCOMB1 := scaleOff pr.mLCOMB1 stretch_factor
    mRCOMB1 := scaleOff pr.mRCOMB1 stretch_factor
    mLCOMB2 := scaleOff pr.mLCOMB2 stretch_factor
    mRCOMB2 := scaleOff pr.mRCOMB2 stretch_factor
    dLSAME := scaleOff pr.dLSAME stretch_factor
    dRSAME := scaleOff pr.dRSAME stretch_factor
    mLDIFF := scaleOff pr.mLDIFF stretch_factor
    mRDIFF := scaleOff pr.mRDIFF stretch_factor
    mLCOMB3 := scaleOff pr.mLCOMB3 stretch_factor
    mRCOMB3 := scaleOff pr.mRCOMB3 stretch_factor
    mLCOMB4 := scaleOff pr.mLCOMB4 stretch_factor
    mRCOMB4 := scaleOff pr.mRCOMB4 stretch_factor
    dLDIFF := scaleOff pr.dLDIFF stretch_factor
    dRDIFF := scaleOff pr.dRDIFF stretch_factor
    mLAPF1 := scaleOff pr.mLAPF1 stretch_factor
    mRAPF1 := scaleOff pr.mRAPF1 stretch_factor
    mLAPF2 := scaleOff pr.mLAPF2 stretch_factor
    mRAPF2 := scaleOff pr.mRAPF2 stretch_factor
    vLIN := s2f pr.vLIN
    vRIN := s2f pr.vRIN }

/-- All-zero parameters, as left by `calloc` in `instantiate` (psx-reverb.c:204). -/
def zeroParams : RuntimeParams where
  dAPF1 := 0
  dAPF2 := 0
  vIIR := 0
  vCOMB1 := 0
  vCOMB2 := 0
  vCOMB3 := 0
  vCOMB4 := 0
  vWALL := 0
  vAPF1 := 0
  vAPF2 := 0
  mLSAME := 0
  mRSAME := 0
  mLCOMB1 := 0
  mRCOMB1 := 0
  mLCOMB2 := 0
  mRCOMB2 := 0
  dLSAME := 0
  dRSAME := 0
  mLDIFF := 0
  mRDIFF := 0
  mLCOMB3 := 0
  mRCOMB3 := 0
  mLCOMB4 := 0
  mRCOMB4 := 0
  dLDIFF := 0
  dRDIFF := 0
  mLAPF1 := 0
  mRAPF1 := 0
  mLAPF2 := 0
  mRAPF2 := 0
  vLIN := 0
  vRIN := 0

/-- The engine instance state `PsxReverb` (psx-reverb.c:74-137), dropping the
host port pointers (they carry the per-call inputs, passed explicitly below). -/
structure PsxReverb where
  master : ℚ
  wet : ℚ
  preset : ℤ
  dry : ℚ
  spu_buffer : ℕ → ℚ
  spu_buffer_count : ℕ
  spu_buffer_count_mask : ℕ
  BufferAddress : ℕ
  rate : ℚ
  params : RuntimeParams

/-- Model of `preset_load` (psx-reverb.c:497-545).  The requested index is recorded
unconditionally first; an index `≥ NUM_PRESETS` is rejected leaving all other
state untouched.  A negative index slips past the `>=` guard and makes the C
code read `presets[preset_index]` out of bounds (undefined behaviour),
modelled as `none`. -/
def psxPresetLoad (psx_rev : PsxReverb) (preset_index : ℤ) : Option PsxReverb :=
  let st := { psx_rev with preset := preset_index }
  if 10 ≤ preset_index then some st
  else if preset_index < 0 then none
  else some { st with
    params := psxDerive preset_index.toNat st.rate
    spu_buffer := fun _ => 0 }

/-- Model of `instantiate` (psx-reverb.c:198-240): reject rates `≤ 1.0`, size the SPU
buffer to `ceilpower2(ceil(SPU_REV_PRESET_LONGEST_COUNT * (rate / 22050)))`
with `SPU_REV_PRESET_LONGEST_COUNT = 0x18040 / 2 = 49184`, and zero-initialise
everything else (`calloc`). -/
def psxInstantiate (rate : ℚ) : Option PsxReverb :=
  if rate ≤ 1 then none
  else
    let count := ceilpower2 ⌈(49184 : ℚ) * (rate / 22050)⌉₊
    some { master := 0, wet := 0, preset := 0, dry := 0,
           spu_buffer := fun _ => 0,
           spu_buffer_count := count,
           spu_buffer_count_mask := count - 1,
           BufferAddress := 0,
           rate := rate,
           params := zeroParams }

/-- Model of `activate` (psx-reverb.c:294-305): reset gains to 1, reset the preset
selection to 0 and load it, zero the cursor and the whole buffer. -/
def psxActivate (psx_rev : PsxReverb) : Option PsxReverb :=
  (psxPresetLoad { psx_rev with dry := 1, wet := 1, preset := 0 } 0).map
    fun s => { s with master := 1, BufferAddress := 0, spu_buffer := fun _ => 0 }

/-- The `mem(idx)` addressing macro (psx-reverb.c:338):
`(unsigned)((idx) + BufferAddress) & spu_buffer_count_mask`, the `uint32_t`
sum wrapping modulo `2 ^ 32`. -/
def memIdx (BufferAddress mask idx : ℕ) : ℕ :=
  ((idx + BufferAddress) % 2 ^ 32) &&& mask

/-- Wrapping `uint32_t` subtraction `a - b` (used for `mLSAME - 1`, `mLAPF1 - dAPF1`
etc.), wrapping modulo `2 ^ 32`. -/
def u32sub (a b : ℕ) : ℕ := (a + (2 ^ 32 - b % 2 ^ 32)) % 2 ^ 32

/-- Store into one buffer cell. -/
def bufWrite (buf : ℕ → ℚ) (a : ℕ) (v : ℚ) : ℕ → ℚ :=
  fun i => if i = a then v else buf i

/-- The per-sample filter graph (psx-reverb.c:339-363), statement by statement:
same-side reflection, different-side reflection, early echo combs, the two
cascaded allpass stages.  Returns the updated buffer together with
`(Lin, Rin, Lout, Rout)`. -/
def spuStep (p : RuntimeParams) (cur mask : ℕ) (buf : ℕ → ℚ)
    (LeftInput RightInput : ℚ) : (ℕ → ℚ) × ℚ × ℚ × ℚ × ℚ :=
  let adr := fun idx => memIdx cur mask idx
  let Lin := p.vLIN * LeftInput
  let Rin := p.vRIN * RightInput
  let b1 := bufWrite buf (adr p.mLSAME)
      ((Lin + buf (adr p.dLSAME) * p.vWALL - buf (adr (u32sub p.mLSAME 1))) * p.vIIR
        + buf (adr (u32sub p.mLSAME 1)))
  let b2 := bufWrite b1 (adr p.mRSAME)
      ((Rin + b1 (adr p.dRSAME) * p.vWALL - b1 (adr (u32sub p.mRSAME 1))) * p.vIIR
        + b1 (adr (u32sub p.mRSAME 1)))
  let b3 := bufWrite b2 (adr p.mLDIFF)
      ((Lin + b2 (adr p.dRDIFF) * p.vWALL - b2 (adr (u32sub p.mLDIFF 1))) * p.vIIR
        + b2 (adr (u32sub p.mLDIFF 1)))
  let b4 := bufWrite b3 (adr p.mRDIFF)
      ((Rin + b3 (adr p.dLDIFF) * p.vWALL - b3 (adr (u32sub p.mRDIFF 1))) * p.vIIR
        + b3 (adr (u32sub p.mRDIFF 1)))
  let Lout0 := p.vCOMB1 * b4 (adr p.mLCOMB1) + p.vCOMB2 * b4 (adr p.mLCOMB2)
      + p.vCOMB3 * b4 (adr p.mLCOMB3) + p.vCOMB4 * b4 (adr p.mLCOMB4)
  let Rout0 := p.vCOMB1 * b4 (adr p.mRCOMB1) + p.vCOMB2 * b4 (adr p.mRCOMB2)
      + p.vCOMB3 * b4 (adr p.mRCOMB3) + p.vCOMB4 * b4 (adr p.mRCOMB4)
  let Lout1 := Lout0 - p.vAPF1 * b4 (adr (u32sub p.mLAPF1 p.dAPF1))
  let b5 := bufWrite b4 (adr p.mLAPF1) Lout1
  let Lout2 := Lout1 * p.vAPF1 + b5 (adr (u32sub p.mLAPF1 p.dAPF1))
  let Rout1 := Rout0 - p.vAPF1 * b5 (adr (u32sub p.mRAPF1 p.dAPF1))
  let b6 := bufWrite b5 (adr p.mRAPF1) Rout1
  let Rout2 := Rout1 * p.vAPF1 + b6 (adr (u32sub p.mRAPF1 p.dAPF1))
  let Lout3 := Lout2 - p.vAPF2 * b6 (adr (u32sub p.mLAPF2 p.dAPF2))
  let b7 := bufWrite b6 (adr p.mLAPF2) Lout3
  let Lout4 := Lout3 * p.vAPF2 + b7 (adr (u32sub p.mLAPF2 p.dAPF2))
  let Rout3 := Rout2 - p.vAPF2 * b7 (adr (u32sub p.mRAPF2 p.dAPF2))
  let b8 := bufWrite b7 (adr p.mRAPF2) Rout3
  let Rout4 := Rout3 * p.vAPF2 + b8 (adr (u32sub p.mRAPF2 p.dAPF2))
  (b8, Lin, Rin, Lout4, Rout4)

/-- One iteration of the `run` loop body (psx-reverb.c:333-374): advance the
three gain smoothers, run the filter graph, advance the cursor, and mix the
stereo output `(Lout*wet + Lin*dry)*master`. -/
def runStep (rev : PsxReverb) (wet_coef dry_coef master_coef : ℚ)
    (LeftInput RightInput : ℚ) : PsxReverb × ℚ × ℚ :=
  let dry := rev.dry + 1 / 1000 * (dry_coef - rev.dry)
  let wet := rev.wet + 1 / 1000 * (wet_coef - rev.wet)
  let master := rev.master + 1 / 1000 * (master_coef - rev.master)
  let s := spuStep rev.params rev.BufferAddress rev.spu_buffer_count_mask
      rev.spu_buffer LeftInput RightInput
  ({ rev with
      dry := dry
      wet := wet
      master := master
      spu_buffer := s.1
      BufferAddress := (rev.BufferAddress + 1) &&& rev.spu_buffer_count_mask },
   (s.2.2.2.1 * wet + s.2.1 * dry) * master,
   (s.2.2.2.2 * wet + s.2.2.1 * dry) * master)

/-- The sample loop of `run` over a whole block of input frames. -/
def psxRunBlock (rev : PsxReverb) (wet_coef dry_coef master_coef : ℚ) :
    List (ℚ × ℚ) → PsxReverb × List (ℚ × ℚ)
  | [] => (rev, [])
  | (l, r) :: rest =>
      let s := runStep rev wet_coef dry_coef master_coef l r
      let t := psxRunBlock s.1 wet_coef dry_coef master_coef rest
      (t.1, s.2 :: t.2)

/-- Model of `run` (psx-reverb.c:316-375): reload the preset if the selector port
changed, then process the block.  The per-block gain coefficients are the
values the C code computes from the dB ports via `DB_CO` (see `dbCo`). -/
def psxRun (rev : PsxReverb) (port_preset : ℤ)
    (wet_coef dry_coef master_coef : ℚ) (ins : List (ℚ × ℚ)) :
    Option (PsxReverb × List (ℚ × ℚ)) :=
  let st1 := if port_preset = rev.preset then some rev
             else psxPresetLoad rev port_preset
  st1.map fun s => psxRunBlock s wet_coef dry_coef master_coef ins

/-- The `DB_CO` macro (psx-reverb.c:308):
`(g) > -90.0f ? powf(10.0f, (g) * 0.05f) : 0.0f`, in exact real arithmetic. -/
noncomputable def dbCo (g : ℚ) : ℝ :=
  if (-90 : ℚ) < g then (10 : ℝ) ^ ((g : ℝ) * (5 / 100)) else 0

/-- The 22 sample-rate-scaled delay offsets/lengths of a derived parameter
set, in `PsxReverb` field order. -/
def offsetsList (P : RuntimeParams) : List ℕ :=
  [P.dAPF1, P.dAPF2, P.mLSAME, P.mRSAME, P.mLCOMB1, P.mRCOMB1, P.mLCOMB2,
   P.mRCOMB2, P.dLSAME, P.dRSAME, P.mLDIFF, P.mRDIFF, P.mLCOMB3, P.mRCOMB3,
   P.mLCOMB4, P.mRCOMB4, P.dLDIFF, P.dRDIFF, P.mLAPF1, P.mRAPF1, P.mLAPF2,
   P.mRAPF2]

/-- The corresponding 22 raw `uint16_t` delay registers of preset `p`. -/
def rawDelayRegs (p : ℕ) : List ℕ :=
  [presetReg p 0, presetReg p 1, presetReg p 10, presetReg p 11,
   presetReg p 12, presetReg p 13, presetReg p 14, presetReg p 15,
   presetReg p 16, presetReg p 17, presetReg p 18, presetReg p 19,
   presetReg p 20, presetReg p 21, presetReg p 22, presetReg p 23,
   presetReg p 24, presetReg p 25, presetReg p 26, presetReg p 27,
   presetReg p 28, presetReg p 29]

/-- A concrete engine instance: the state produced by `instantiate(22050)`
followed by `activate` minus the gain defaults — buffer of `2^16` cells (the
22050 Hz sizing), preset 0 loaded, smoothers settled at unity. -/
def testEngine : PsxReverb where
  master := 1
  wet := 1
  preset := 0
  dry := 1
  spu_buffer := fun _ => 0
  spu_buffer_count := 65536
  spu_buffer_count_mask := 65535
  BufferAddress := 0
  rate := 22050
  params := psxDerive 0 22050

/-! ### Bit-level facts about `ceilpower2` and the masked addressing -/

lemma smear_cover_step {y z : ℕ} {m : ℕ}
    (h : ∀ k d, d < m → y.testBit (k + d) = true → z.testBit k = true) :
    ∀ k d, d < m + m → y.testBit (k + d) = true →
      (z ||| z >>> m).testBit k = true := by
  intro k d hd hy
  rw [Nat.testBit_or]
  rcases Nat.lt_or_ge d m with hdm | hdm
  · rw [h k d hdm hy]
    simp
  · have h1 : y.testBit (k + m + (d - m)) = true := by
      have e : k + m + (d - m) = k + d := by omega
      rw [e]; exact hy
    have h2 : z.testBit (k + m) = true := h (k + m) (d - m) (by omega) h1
    have h3 : (z >>> m).testBit k = true := by
      rw [Nat.testBit_shiftRight, Nat.add_comm]
      exact h2
    rw [h3]
    simp

lemma smear_cover {y : ℕ} :
    ∀ k d, d < 32 → y.testBit (k + d) = true → (smear y).testBit k = true := by
  have h1 : ∀ k d, d < 1 → y.testBit (k + d) = true → y.testBit k = true := by
    intro k d hd hy
    have hd0 : d = 0 := by omega
    subst hd0
    simpa using hy
  have h2 := smear_cover_step h1
  have h4 := smear_cover_step h2
  have h8 := smear_cover_step h4
  have h16 := smear_cover_step h8
  have h32 := smear_cover_step h16
  intro k d hd hy
  exact h32 k d (by omega) hy

lemma shiftRight_lt_two_pow {z n m : ℕ} (hz : z < 2 ^ n) : z >>> m < 2 ^ n := by
  rw [Nat.shiftRight_eq_div_pow]
  exact lt_of_le_of_lt (Nat.div_le_self _ _) hz

lemma smear_lt {y n : ℕ} (h : y < 2 ^ n) : smear y < 2 ^ n := by
  have h1 : y ||| y >>> 1 < 2 ^ n := Nat.or_lt_two_pow h (shiftRight_lt_two_pow h)
  have h2 : (y ||| y >>> 1) ||| (y ||| y >>> 1) >>> 2 < 2 ^ n :=
    Nat.or_lt_two_pow h1 (shiftRight_lt_two_pow h1)
  have h3 := Nat.or_lt_two_pow h2 (shiftRight_lt_two_pow (m := 4) h2)
  have h4 := Nat.or_lt_two_pow h3 (shiftRight_lt_two_pow (m := 8) h3)
  have h5 := Nat.or_lt_two_pow h4 (shiftRight_lt_two_pow (m := 16) h4)
  exact h5

lemma testBit_log2_self {y : ℕ} (hy : y ≠ 0) : y.testBit y.log2 = true := by
  have lo : 2 ^ y.log2 ≤ y := Nat.log2_self_le hy
  have hi : y < 2 ^ (y.log2 + 1) := Nat.lt_log2_self
  have hdiv : y / 2 ^ y.log2 = 1 := by
    apply Nat.div_eq_of_lt_le
    · simpa using lo
    · have : y < 2 * 2 ^ y.log2 := by
        rw [Nat.pow_succ] at hi
        omega
      simpa [Nat.succ_mul] using this
  rw [Nat.testBit_to_div_mod, hdiv]
  decide

lemma smear_eq_pow_sub_one {y : ℕ} (h1 : 1 ≤ y) (h2 : y < 2 ^ 31) :
    smear y = 2 ^ (y.log2 + 1) - 1 := by
  have hyL : y < 2 ^ (y.log2 + 1) := Nat.lt_log2_self
  have hsm : smear y < 2 ^ (y.log2 + 1) := smear_lt hyL
  apply Nat.eq_of_testBit_eq
  intro i
  rw [Nat.testBit_two_pow_sub_one]
  rcases Nat.lt_or_ge i (y.log2 + 1) with hi | hi
  · have hbit : (smear y).testBit i = true := by
      apply smear_cover i (y.log2 - i)
      · have hL : y.log2 < 31 := (Nat.log2_lt (by omega)).2 h2
        omega
      · have e : i + (y.log2 - i) = y.log2 := by omega
        rw [e]
        exact testBit_log2_self (by omega)
    rw [hbit]
    simp [hi]
  · have hbit : (smear y).testBit i = false := by
      apply Nat.testBit_lt_two_pow
      exact lt_of_lt_of_le hsm (Nat.pow_le_pow_right (by omega) hi)
    rw [hbit]
    have : ¬ i < y.log2 + 1 := by omega
    simp [this]

lemma ceilpower2_spec {x : ℕ} (h1 : 1 ≤ x) (h2 : x ≤ 2 ^ 31) :
    ∃ L, L ≤ 31 ∧ ceilpower2 x = 2 ^ L ∧ x ≤ 2 ^ L := by
  by_cases hx1 : x = 1
  · subst hx1
    exact ⟨0, by omega, by decide, by omega⟩
  · have hx2 : 2 ≤ x := by omega
    have hy1 : 1 ≤ x - 1 := by omega
    have hy2 : x - 1 < 2 ^ 31 := by omega
    have hL : (x - 1).log2 < 31 := (Nat.log2_lt (by omega)).2 hy2
    have hyL : x - 1 < 2 ^ ((x - 1).log2 + 1) := Nat.lt_log2_self
    refine ⟨(x - 1).log2 + 1, by omega, ?_, by omega⟩
    unfold ceilpower2
    have e1 : x + (2 ^ 32 - 1) = (x - 1) + 2 ^ 32 := by omega
    have e2 : ((x - 1) + 2 ^ 32) % 2 ^ 32 = x - 1 := by
      rw [Nat.add_mod_right]
      exact Nat.mod_eq_of_lt (by omega)
    rw [e1, e2, smear_eq_pow_sub_one hy1 hy2]
    have e3 : 2 ^ ((x - 1).log2 + 1) - 1 + 1 = 2 ^ ((x - 1).log2 + 1) := by
      have : (0:ℕ) < 2 ^ ((x - 1).log2 + 1) := Nat.pow_pos (by omega)
      omega
    rw [e3]
    exact Nat.mod_eq_of_lt (Nat.pow_lt_pow_right (by omega) (by omega))

lemma memIdx_eq_mod {L cur idx : ℕ} (hL : L ≤ 32) :
    memIdx cur (2 ^ L - 1) idx = (idx + cur) % 2 ^ L := by
  unfold memIdx
  rw [Nat.and_pow_two_sub_one_eq_mod]
  exact Nat.mod_mod_of_dvd _ (Nat.pow_dvd_pow 2 hL)

lemma memIdx_lt (L cur idx : ℕ) (hL : L ≤ 32) :
    memIdx cur (2 ^ L - 1) idx < 2 ^ L := by
  rw [memIdx_eq_mod hL]
  exact Nat.mod_lt _ (Nat.pow_pos (by omega))

lemma memIdx_sub_int (L cur base k : ℕ) (hL : L ≤ 32) (hk : k < 2 ^ 32) :
    (memIdx cur (2 ^ L - 1) (u32sub base k) : ℤ) =
      ((base : ℤ) + (cur : ℤ) - (k : ℤ)) % (2 : ℤ) ^ L := by
  rw [memIdx_eq_mod hL]
  unfold u32sub
  rw [Nat.mod_eq_of_lt hk]
  have h1 : (base + (2 ^ 32 - k)) % 2 ^ 32 ≡ base + (2 ^ 32 - k) [MOD 2 ^ L] :=
    (Nat.mod_modEq _ _).of_dvd (Nat.pow_dvd_pow 2 hL)
  have hcong : ((base + (2 ^ 32 - k)) % 2 ^ 32 + cur) % 2 ^ L
      = (base + (2 ^ 32 - k) + cur) % 2 ^ L := h1.add_right cur
  rw [hcong, Int.natCast_mod]
  have hpow : ((2 ^ L : ℕ) : ℤ) = (2 : ℤ) ^ L := by push_cast; ring
  rw [hpow]
  have hmeq : ((base + (2 ^ 32 - k) + cur : ℕ) : ℤ)
      ≡ (base : ℤ) + (cur : ℤ) - (k : ℤ) [ZMOD (2 : ℤ) ^ L] := by
    rw [Int.modEq_iff_dvd]
    have hdiff : ((base : ℤ) + (cur : ℤ) - (k : ℤ))
        - ((base + (2 ^ 32 - k) + cur : ℕ) : ℤ) = -(2 ^ 32) := by
      omega
    rw [hdiff]
    refine dvd_neg.2 ⟨2 ^ (32 - L), ?_⟩
    rw [← pow_add]
    congr 1
    omega
  exact hmeq

/-! ### Frame and zero-preservation lemmas for the sample processor -/

lemma spuStep_frame (p : RuntimeParams) (cur : ℕ) {L : ℕ} (hL : L ≤ 32)
    (buf : ℕ → ℚ) (lI rI : ℚ) :
    ∀ i, 2 ^ L ≤ i → (spuStep p cur (2 ^ L - 1) buf lI rI).1 i = buf i := by
  intro i hi
  have hne : ∀ idx : ℕ, (i = memIdx cur (2 ^ L - 1) idx) = False := by
    intro idx
    apply eq_false
    intro h
    have := memIdx_lt L cur idx hL
    omega
  simp only [spuStep, bufWrite, hne, if_false]

lemma spuStep_zero (cur mask : ℕ) {p : RuntimeParams} {buf : ℕ → ℚ} {lI rI : ℚ}
    (hbuf : ∀ i, buf i = 0) (hL : p.vLIN * lI = 0) (hR : p.vRIN * rI = 0) :
    (∀ i, (spuStep p cur mask buf lI rI).1 i = 0) ∧
      (spuStep p cur mask buf lI rI).2.2.2.1 = 0 ∧
      (spuStep p cur mask buf lI rI).2.2.2.2 = 0 := by
  refine ⟨fun i => ?_, ?_, ?_⟩ <;>
    simp [spuStep, bufWrite, hbuf, hL, hR]

lemma runStep_params (rev : PsxReverb) (cw cd cm lI rI : ℚ) :
    (runStep rev cw cd cm lI rI).1.params = rev.params := rfl

lemma runStep_zero (cw cd cm : ℚ) {rev : PsxReverb} {lI rI : ℚ}
    (hbuf : ∀ i, rev.spu_buffer i = 0)
    (hL : rev.params.vLIN * lI = 0) (hR : rev.params.vRIN * rI = 0) :
    (∀ i, (runStep rev cw cd cm lI rI).1.spu_buffer i = 0) ∧
      (runStep rev cw cd cm lI rI).2 = (0, 0) := by
  obtain ⟨hb, hLo, hRo⟩ := spuStep_zero rev.BufferAddress
      rev.spu_buffer_count_mask hbuf hL hR
  constructor
  · intro i
    simpa [runStep] using hb i
  · have hLin : (spuStep rev.params rev.BufferAddress rev.spu_buffer_count_mask
        rev.spu_buffer lI rI).2.1 = 0 := hL
    have hRin : (spuStep rev.params rev.BufferAddress rev.spu_buffer_count_mask
        rev.spu_buffer lI rI).2.2.1 = 0 := hR
    simp [runStep, hLo, hRo, hLin, hRin]

lemma runBlock_zero (rev : PsxReverb) (cw cd cm : ℚ) {ins : List (ℚ × ℚ)}
    (hbuf : ∀ i, rev.spu_buffer i = 0)
    (hin : ∀ x ∈ ins, rev.params.vLIN * x.1 = 0 ∧ rev.params.vRIN * x.2 = 0) :
    (∀ i, (psxRunBlock rev cw cd cm ins).1.spu_buffer i = 0) ∧
      (psxRunBlock rev cw cd cm ins).2 = List.replicate ins.length (0, 0) := by
  induction ins generalizing rev with
  | nil => exact ⟨hbuf, rfl⟩
  | cons hd tl ih =>
      obtain ⟨l, r⟩ := hd
      have hmem : ((l, r) : ℚ × ℚ) ∈ (l, r) :: tl := by simp
      obtain ⟨hstep_buf, hstep_out⟩ :=
        runStep_zero cw cd cm hbuf
          (hin (l, r) hmem).1 (hin (l, r) hmem).2
      have hin' : ∀ x ∈ tl,
          (runStep rev cw cd cm l r).1.params.vLIN * x.1 = 0 ∧
          (runStep rev cw cd cm l r).1.params.vRIN * x.2 = 0 := by
        intro x hx
        rw [runStep_params]
        exact hin x (List.mem_cons_of_mem _ hx)
      have htl := ih (runStep rev cw cd cm l r).1 hstep_buf hin'
      refine ⟨fun i => ?_, ?_⟩
      · simpa [psxRunBlock] using htl.1 i
      · simp [psxRunBlock, hstep_out, htl.2, List.replicate_succ]

/-! ### Facts read off the preset table -/

lemma rawDelayRegs_le : ∀ p, p < 10 → ∀ v ∈ rawDelayRegs p, v ≤ 8191 := by decide

lemma presetReg_dAPF1_pos : ∀ p, p < 9 → 1 ≤ presetReg p 0 := by decide

lemma scaleOff_eq (reg : ℕ) (s : ℚ) : scaleOff reg s = ⌊(reg : ℚ) * 4 * s⌋₊ := by
  unfold scaleOff
  rw [Nat.shiftLeft_eq]
  push_cast
  norm_num

lemma scaleOff_lt {reg : ℕ} {s : ℚ} (hreg : reg ≤ 8191) (hs : 0 < s) {n : ℕ}
    (hn : (49184 : ℚ) * s ≤ (n : ℚ)) : scaleOff reg s < n := by
  rw [scaleOff_eq]
  have harg : (0 : ℚ) ≤ (reg : ℚ) * 4 * s := by
    apply mul_nonneg _ hs.le
    apply mul_nonneg (Nat.cast_nonneg reg)
    norm_num
  rw [Nat.floor_lt harg]
  have h1 : (reg : ℚ) * 4 ≤ 32764 := by
    have : (reg : ℚ) ≤ 8191 := by exact_mod_cast hreg
    linarith
  have h2 : (reg : ℚ) * 4 * s ≤ 32764 * s := mul_le_mul_of_nonneg_right h1 hs.le
  have h3 : (32764 : ℚ) * s < 49184 * s := by
    apply mul_lt_mul_of_pos_right _ hs
    norm_num
  linarith

lemma scaleOff_pos {reg : ℕ} {s : ℚ} (hreg : 1 ≤ reg) (hs : 1 / 4 ≤ s) :
    0 < scaleOff reg s := by
  rw [scaleOff_eq]
  have hr : (1 : ℚ) ≤ (reg : ℚ) := by exact_mod_cast hreg
  have h1 : (1 : ℚ) ≤ (reg : ℚ) * 4 * s := by nlinarith
  have h2 : 1 ≤ ⌊(reg : ℚ) * 4 * s⌋₊ := Nat.le_floor (by exact_mod_cast h1)
  omega

lemma offsets_eq_map (p : ℕ) (r : ℚ) :
    offsetsList (psxDerive p r) =
      (rawDelayRegs p).map (fun w : ℕ => ⌊(w : ℚ) * 4 * (r / 22050)⌋₊) := by
  simp [offsetsList, psxDerive, decodePreset, rawDelayRegs, scaleOff_eq, List.map]

/-! ### Concrete instances used by witnesses and counterexamples -/

/-- The engine state produced by `instantiate(22050)`. -/
def e22050 : PsxReverb where
  master := 0
  wet := 0
  preset := 0
  dry := 0
  spu_buffer := fun _ => 0
  spu_buffer_count := 65536
  spu_buffer_count_mask := 65535
  BufferAddress := 0
  rate := 22050
  params := zeroParams

lemma inst22050 : psxInstantiate 22050 = some e22050 := by
  have hx : ⌈(49184 : ℚ) * ((22050 : ℚ) / 22050)⌉₊ = 49184 := by norm_num
  have hc : ceilpower2 49184 = 65536 := by decide
  unfold psxInstantiate
  rw [if_neg (by norm_num : ¬ (22050 : ℚ) ≤ 1)]
  simp only [hx, hc]
  rfl

/-- State `testEngine` with preset 5 ("Half Echo") active. -/
def testEngine5 : PsxReverb := { testEngine with preset := 5, params := psxDerive 5 22050 }

/-- State `testEngine` with preset 9 ("Off") active: the state reached after
requesting preset 9, with the gain smoothers fully settled at unity. -/
def offEngine : PsxReverb := { testEngine with preset := 9, params := psxDerive 9 22050 }

/-! ### Claim theorems -/

/-- C1 (code bug) — the claim is right and the code is wrong.  For a selector `≥ 10`
(e.g. `999`) `preset_load` behaves exactly as claimed: it records the index
and leaves the parameters and every buffer cell untouched (second conjunct is
a structural equality, so bit-identical state).  But a *negative* selector
(e.g. `-1`) slips past the sole `preset_index >= NUM_PRESETS` guard
(psx-reverb.c:501) and the code dereferences `presets[-1]` — an out-of-bounds
read (undefined behaviour), after which it overwrites every RuntimeParameters
field from that memory and zeroes the whole delay buffer (psx-reverb.c:544),
the opposite of the claimed no-op.  `none` marks that out-of-bounds access in
the embedding. -/
theorem claim_C1 :
    psxPresetLoad testEngine (-1) = none ∧
    psxPresetLoad testEngine 999 = some { testEngine with preset := 999 } := by
  constructor
  · rfl
  · rfl

/-- C9 counterexample — `activate` does *not* reload the previously active
preset: starting from an engine with preset 5 active (`dAPF1 = 92` at
22050 Hz), `activate` leaves preset 0's parameters (`dAPF1 = 500`) in effect,
not preset 5's. -/
theorem claim_C9_cex :
    testEngine5.preset = 5 ∧
    (psxActivate testEngine5).map (fun s => s.params.dAPF1) = some 500 ∧
    testEngine5.params.dAPF1 = 92 ∧ (500 : ℕ) ≠ 92 := by
  refine ⟨rfl, ?_, ?_, by decide⟩
  · have hact : psxActivate testEngine5 = some { testEngine5 with
        master := 1, wet := 1, dry := 1, preset := 0,
        params := psxDerive 0 22050, BufferAddress := 0,
        spu_buffer := fun _ => 0 } := rfl
    rw [hact]
    show some (scaleOff (presetReg 0 0) ((22050 : ℚ) / 22050)) = some 500
    have h0 : presetReg 0 0 = 125 := by decide
    rw [h0, scaleOff_eq]
    norm_num
  · show scaleOff (presetReg 5 0) ((22050 : ℚ) / 22050) = 92
    have h5 : presetReg 5 0 = 23 := by decide
    rw [h5, scaleOff_eq]
    norm_num

/-- C9 (amended) — `activate` re-zeroes the entire delay buffer and resets
the engine to its *defaults*: smoothed gains to 1, cursor to 0, and the preset
selection to 0, whose RuntimeParameters are loaded regardless of which preset
was active before the reset. -/
theorem claim_C9_amended : ∀ rev : PsxReverb, ∃ rev',
    psxActivate rev = some rev' ∧
    rev'.preset = 0 ∧
    rev'.params = psxDerive 0 rev.rate ∧
    rev'.wet = 1 ∧ rev'.dry = 1 ∧ rev'.master = 1 ∧
    rev'.BufferAddress = 0 ∧ (∀ i, rev'.spu_buffer i = 0) := by
  intro rev
  exact ⟨_, rfl, rfl, rfl, rfl, rfl, rfl, rfl, fun i => rfl⟩

/-- C10 — for every preset except index 9 the input-mix registers hold
`0x8000`, which decodes through `s2f` to `-1`, so `Lin`/`Rin` are the negated
inputs; preset 9 decodes them to `0`.  The third conjunct exhibits the mixer
formula: the dry contribution to each output sample is
`vLIN * input * drySmoothed` (resp. `vRIN`), scaled by the master smoother —
i.e. polarity-inverted input for presets 0–8 and silence for preset 9. -/
theorem claim_C10 :
    (∀ p : ℕ, p < 9 → ∀ r : ℚ,
        (psxDerive p r).vLIN = -1 ∧ (psxDerive p r).vRIN = -1) ∧
    (∀ r : ℚ, (psxDerive 9 r).vLIN = 0 ∧ (psxDerive 9 r).vRIN = 0) ∧
    (∀ (rev : PsxReverb) (cw cd cm lI rI : ℚ),
        (runStep rev cw cd cm lI rI).2.1 =
          ((spuStep rev.params rev.BufferAddress rev.spu_buffer_count_mask
              rev.spu_buffer lI rI).2.2.2.1 * (rev.wet + 1 / 1000 * (cw - rev.wet))
            + rev.params.vLIN * lI * (rev.dry + 1 / 1000 * (cd - rev.dry)))
            * (rev.master + 1 / 1000 * (cm - rev.master)) ∧
        (runStep rev cw cd cm lI rI).2.2 =
          ((spuStep rev.params rev.BufferAddress rev.spu_buffer_count_mask
              rev.spu_buffer lI rI).2.2.2.2 * (rev.wet + 1 / 1000 * (cw - rev.wet))
            + rev.params.vRIN * rI * (rev.dry + 1 / 1000 * (cd - rev.dry)))
            * (rev.master + 1 / 1000 * (cm - rev.master))) := by
  refine ⟨?_, ?_, ?_⟩
  · have hreg : ∀ p, p < 9 → presetReg p 30 = 32768 ∧ presetReg p 31 = 32768 := by
      decide
    have hval : s2f (toInt16 32768) = -1 := by norm_num [s2f, toInt16]
    intro p hp r
    constructor
    · show s2f (toInt16 (presetReg p 30)) = -1
      rw [(hreg p hp).1]
      exact hval
    · show s2f (toInt16 (presetReg p 31)) = -1
      rw [(hreg p hp).2]
      exact hval
  · have h9 : presetReg 9 30 = 0 ∧ presetReg 9 31 = 0 := by decide
    have hval0 : s2f (toInt16 0) = 0 := by norm_num [s2f, toInt16]
    intro r
    constructor
    · show s2f (toInt16 (presetReg 9 30)) = 0
      rw [h9.1]
      exact hval0
    · show s2f (toInt16 (presetReg 9 31)) = 0
      rw [h9.2]
      exact hval0
  · intro rev cw cd cm lI rI
    exact ⟨rfl, rfl⟩

/-- C10 witness — concrete instance at preset 0. -/
theorem claim_C10_witness :
    (0 : ℕ) < 9 ∧ (psxDerive 0 22050).vLIN = -1 ∧ (psxDerive 0 22050).vRIN = -1 :=
  ⟨by decide, (claim_C10.1 0 (by decide) 22050).1, (claim_C10.1 0 (by decide) 22050).2⟩

/-- C7 — each of the three gain smoothers advances once per processed
sample by `current += 0.001 * (target - current)`; the `DB_CO` target is
`10^(db/20)` above −90 dB and 0 at or below it; iterating the sample loop
with target 1 from a smoother state 0 yields `1 - 0.999^k` after `k` samples,
which is within `0.001` of `0.632` at `k = 1000`. -/
theorem claim_C7 :
    (∀ (rev : PsxReverb) (cw cd cm lI rI : ℚ),
        (runStep rev cw cd cm lI rI).1.wet = rev.wet + 1 / 1000 * (cw - rev.wet) ∧
        (runStep rev cw cd cm lI rI).1.dry = rev.dry + 1 / 1000 * (cd - rev.dry) ∧
        (runStep rev cw cd cm lI rI).1.master
          = rev.master + 1 / 1000 * (cm - rev.master)) ∧
    (∀ g : ℚ, -90 < g → dbCo g = (10 : ℝ) ^ ((g : ℝ) / 20)) ∧
    (∀ g : ℚ, g ≤ -90 → dbCo g = 0) ∧
    (∀ rev : PsxReverb, rev.dry = 0 → ∀ k : ℕ,
        ((fun st => (runStep st 1 1 1 0 0).1)^[k] rev).dry
          = 1 - (999 / 1000 : ℚ) ^ k) ∧
    |(1 - (999 / 1000 : ℚ) ^ 1000) - 632 / 1000| < 1 / 1000 := by
  refine ⟨fun rev cw cd cm lI rI => ⟨rfl, rfl, rfl⟩, ?_, ?_, ?_, ?_⟩
  · intro g hg
    unfold dbCo
    rw [if_pos hg]
    congr 1
    ring
  · intro g hg
    unfold dbCo
    rw [if_neg (by linarith)]
  · intro rev h0 k
    induction k with
    | zero => simpa using h0
    | succ n ihn =>
        rw [Function.iterate_succ_apply']
        have hstep : ∀ st : PsxReverb,
            ((fun st : PsxReverb => (runStep st 1 1 1 0 0).1) st).dry
              = st.dry + 1 / 1000 * (1 - st.dry) := fun st => rfl
        rw [hstep, ihn, pow_succ]
        ring
  · rw [abs_lt]
    constructor <;> norm_num

/-! ### Shared facts about `instantiate` sizing and preset-9 decoding -/

lemma instantiate_count {r : ℚ} (hr : 2 ≤ r)
    (hbound : ⌈(49184 : ℚ) * (r / 22050)⌉₊ ≤ 2 ^ 31) {e : PsxReverb}
    (he : psxInstantiate r = some e) :
    ∃ L, L ≤ 31 ∧ e.spu_buffer_count = 2 ^ L ∧
      ⌈(49184 : ℚ) * (r / 22050)⌉₊ ≤ 2 ^ L ∧
      e.spu_buffer_count_mask = 2 ^ L - 1 := by
  have hr0 : (0 : ℚ) < r := by linarith
  have hrn : ¬ r ≤ 1 := by linarith
  simp only [psxInstantiate, hrn, if_false, Option.some.injEq] at he
  subst he
  have hx1 : 1 ≤ ⌈(49184 : ℚ) * (r / 22050)⌉₊ := by
    have hpos : (0 : ℚ) < 49184 * (r / 22050) := by positivity
    have := Nat.ceil_pos.2 hpos
    omega
  obtain ⟨L, hL, hcp, hle⟩ := ceilpower2_spec hx1 hbound
  refine ⟨L, hL, hcp, hle, ?_⟩
  show ceilpower2 ⌈(49184 : ℚ) * (r / 22050)⌉₊ - 1 = 2 ^ L - 1
  rw [hcp]

lemma derive_offsets_lt {r : ℚ} (hr : 2 ≤ r)
    (hbound : ⌈(49184 : ℚ) * (r / 22050)⌉₊ ≤ 2 ^ 31) {e : PsxReverb}
    (he : psxInstantiate r = some e) :
    ∀ p : ℕ, p < 10 → ∀ v ∈ offsetsList (psxDerive p r), v < e.spu_buffer_count := by
  obtain ⟨L, hL31, hcount, hxle, hmask⟩ := instantiate_count hr hbound he
  intro p hp v hv
  rw [offsets_eq_map] at hv
  obtain ⟨w, hw_mem, rfl⟩ := List.mem_map.1 hv
  have hw := rawDelayRegs_le p hp w hw_mem
  have hr0 : (0 : ℚ) < r := by linarith
  have hs : (0 : ℚ) < r / 22050 := by positivity
  have hn : (49184 : ℚ) * (r / 22050) ≤ (e.spu_buffer_count : ℚ) := by
    calc (49184 : ℚ) * (r / 22050)
        ≤ (⌈(49184 : ℚ) * (r / 22050)⌉₊ : ℚ) := Nat.le_ceil _
      _ ≤ (e.spu_buffer_count : ℚ) := by
          rw [hcount]
          exact_mod_cast hxle
  rw [← scaleOff_eq]
  exact scaleOff_lt hw hs hn

lemma derive9_mix (r : ℚ) : (psxDerive 9 r).vLIN = 0 ∧ (psxDerive 9 r).vRIN = 0 := by
  have h30 : presetReg 9 30 = 0 := by decide
  have h31 : presetReg 9 31 = 0 := by decide
  have hval0 : s2f (toInt16 0) = 0 := by norm_num [s2f, toInt16]
  constructor
  · show s2f (toInt16 (presetReg 9 30)) = 0
    rw [h30]
    exact hval0
  · show s2f (toInt16 (presetReg 9 31)) = 0
    rw [h31]
    exact hval0

/-- The engine state reached by loading preset 0 into `testEngine`. -/
def loadedTE0 : PsxReverb :=
  { testEngine with preset := 0, params := psxDerive 0 22050, spu_buffer := fun _ => 0 }

/-- C8 — from the state immediately after a fresh load of any shipped
preset (buffer all zeros), processing any all-zero input block keeps every
delay-buffer cell at 0 and produces exactly-zero output samples, whatever the
gain coefficients; in particular this holds for blocks of length
`2 * spu_buffer_count` and longer. -/
theorem claim_C8 : ∀ p : ℕ, p < 10 → ∀ rev rev' : PsxReverb,
    psxPresetLoad rev (p : ℤ) = some rev' →
    ∀ cw cd cm : ℚ, ∀ ins : List (ℚ × ℚ), (∀ x ∈ ins, x = (0, 0)) →
    (∀ i, (psxRunBlock rev' cw cd cm ins).1.spu_buffer i = 0) ∧
    (psxRunBlock rev' cw cd cm ins).2 = List.replicate ins.length (0, 0) := by
  intro p hp rev rev' hload cw cd cm ins hins
  have hnot10 : ¬ (10 : ℤ) ≤ (p : ℤ) := by exact_mod_cast (by omega : ¬ 10 ≤ p)
  have hnotneg : ¬ ((p : ℤ) < 0) := not_lt.2 (Int.natCast_nonneg p)
  simp only [psxPresetLoad, hnot10, hnotneg, if_false, Option.some.injEq] at hload
  subst hload
  apply runBlock_zero
  · intro i
    rfl
  · intro x hx
    rw [hins x hx]
    simp

/-- C8 witness — preset 0 loaded into the concrete 22050 Hz engine,
a two-sample all-zero block. -/
theorem claim_C8_witness :
    (0 : ℕ) < 10 ∧ psxPresetLoad testEngine ((0 : ℕ) : ℤ) = some loadedTE0 ∧
    (∀ x ∈ ([(0, 0), (0, 0)] : List (ℚ × ℚ)), x = (0, 0)) ∧
    ((∀ i, (psxRunBlock loadedTE0 1 1 1 [(0, 0), (0, 0)]).1.spu_buffer i = 0) ∧
      (psxRunBlock loadedTE0 1 1 1 [(0, 0), (0, 0)]).2
        = List.replicate ([(0, 0), (0, 0)] : List (ℚ × ℚ)).length (0, 0)) :=
  ⟨by decide, rfl, by simp,
    claim_C8 0 (by decide) testEngine loadedTE0 rfl 1 1 1 [(0, 0), (0, 0)] (by simp)⟩

/-- C4 counterexample — preset 9 ("Off") does *not* converge to the dry
path: with the smoothers fully settled at unity gain (wet = dry = master = 1,
i.e. 0 dB) and a unit impulse `(1, 1)` applied, the output sample is `(0, 0)`,
not `≈ 1`: the "Off" preset silences the dry path too (`vLIN = vRIN = 0`). -/
theorem claim_C4_cex :
    (runStep offEngine 1 1 1 1 1).2 = (0, 0) ∧
    ¬ |(1 : ℚ) - (runStep offEngine 1 1 1 1 1).2.1| < 1 / 2 := by
  have hL : offEngine.params.vLIN * (1 : ℚ) = 0 := by
    show (psxDerive 9 22050).vLIN * 1 = 0
    rw [(derive9_mix 22050).1, zero_mul]
  have hR : offEngine.params.vRIN * (1 : ℚ) = 0 := by
    show (psxDerive 9 22050).vRIN * 1 = 0
    rw [(derive9_mix 22050).2, zero_mul]
  obtain ⟨hb, hout⟩ := runStep_zero 1 1 1 (fun i => rfl) hL hR
  refine ⟨hout, ?_⟩
  rw [congrArg Prod.fst hout]
  norm_num

/-- C4 (amended) — after loading preset 9 ("Off"), the engine is fully
muted rather than a dry pass-through: for *any* input block and any gain
coefficients, every output sample is exactly `(0, 0)` and the delay buffer
stays all-zero, because the preset's input-mix gains `vLIN`/`vRIN` are zero
(silencing the dry path, which is routed through them) and all comb/allpass
gains are zero (silencing the wet path). -/
theorem claim_C4_amended : ∀ rev rev' : PsxReverb,
    psxPresetLoad rev 9 = some rev' →
    ∀ cw cd cm : ℚ, ∀ ins : List (ℚ × ℚ),
    (psxRunBlock rev' cw cd cm ins).2 = List.replicate ins.length (0, 0) ∧
    (∀ i, (psxRunBlock rev' cw cd cm ins).1.spu_buffer i = 0) := by
  intro rev rev' hload cw cd cm ins
  have hnot10 : ¬ (10 : ℤ) ≤ 9 := by decide
  have hnotneg : ¬ ((9 : ℤ) < 0) := by decide
  simp only [psxPresetLoad, hnot10, hnotneg, if_false, Option.some.injEq] at hload
  subst hload
  have hin : ∀ x ∈ ins,
      ({ rev with
          preset := 9
          params := psxDerive (9 : ℤ).toNat rev.rate
          spu_buffer := fun _ => (0 : ℚ) } : PsxReverb).params.vLIN * x.1 = 0 ∧
      ({ rev with
          preset := 9
          params := psxDerive (9 : ℤ).toNat rev.rate
          spu_buffer := fun _ => (0 : ℚ) } : PsxReverb).params.vRIN * x.2 = 0 := by
    intro x hx
    constructor
    · show (psxDerive 9 rev.rate).vLIN * x.1 = 0
      rw [(derive9_mix rev.rate).1, zero_mul]
    · show (psxDerive 9 rev.rate).vRIN * x.2 = 0
      rw [(derive9_mix rev.rate).2, zero_mul]
  have hzero := runBlock_zero _ cw cd cm (fun i => rfl) hin
  exact ⟨hzero.2, hzero.1⟩

/-- C4 (amended) witness — concrete engine, one nonzero input frame. -/
theorem claim_C4_witness :
    psxPresetLoad testEngine 9 = some offEngine ∧
    ((psxRunBlock offEngine 1 1 1 [(5, -3)]).2
        = List.replicate ([((5 : ℚ), (-3 : ℚ))] : List (ℚ × ℚ)).length (0, 0) ∧
      ∀ i, (psxRunBlock offEngine 1 1 1 [(5, -3)]).1.spu_buffer i = 0) :=
  ⟨rfl, claim_C4_amended testEngine offEngine rfl 1 1 1 [(5, -3)]⟩

/-- C7 witness — `DB_CO` at 0 dB, and two smoother steps from 0 on the
concrete instantiated engine (whose smoothers start at 0). -/
theorem claim_C7_witness :
    ((-90 : ℚ) < 0 ∧ dbCo 0 = (10 : ℝ) ^ (((0 : ℚ) : ℝ) / 20)) ∧
    (e22050.dry = 0 ∧
      ((fun st => (runStep st 1 1 1 0 0).1)^[2] e22050).dry
        = 1 - (999 / 1000 : ℚ) ^ 2) :=
  ⟨⟨by norm_num, claim_C7.2.1 0 (by norm_num)⟩,
    ⟨rfl, claim_C7.2.2.2.1 e22050 rfl 2⟩⟩

/-- C6 — for a preset index in `[0, 10)` loaded at sample rate `r`, every
one of the 20 derived memory offsets and the 2 allpass delay lengths equals
`⌊rawRegister * 4 * (r / 22050)⌋` (the `<< 2` shift being the ×4 granularity
conversion), and each is non-negative.  (Arithmetic is modelled exactly; the
C `float` product may round.  The `uint32_t` cast is defined behaviour for
every table register whenever `r` is below ≈ 2.9 GHz.) -/
theorem claim_C6 : ∀ p : ℕ, p < 10 → ∀ r : ℚ, 1 < r →
    offsetsList (psxDerive p r)
      = (rawDelayRegs p).map (fun w : ℕ => ⌊(w : ℚ) * 4 * (r / 22050)⌋₊) ∧
    ∀ v ∈ offsetsList (psxDerive p r), 0 ≤ (v : ℤ) := by
  intro p hp r hr
  exact ⟨offsets_eq_map p r, fun v hv => Int.natCast_nonneg v⟩

/-- C6 witness — preset 0 at 22050 Hz. -/
theorem claim_C6_witness :
    ((0 : ℕ) < 10 ∧ (1 : ℚ) < 22050) ∧
    offsetsList (psxDerive 0 22050)
      = (rawDelayRegs 0).map (fun w : ℕ => ⌊(w : ℚ) * 4 * ((22050 : ℚ) / 22050)⌋₊) :=
  ⟨⟨by decide, by norm_num⟩, (claim_C6 0 (by decide) 22050 (by norm_num)).1⟩

/-- C5 — for any sample rate `r ≥ 2`, the delay buffer size computed at
construction is a power of two, is at least `⌈49184 * r / 22050⌉` (with
`49184 = 0x18040 / 2` the largest native preset memory requirement in
samples), and strictly dominates every scaled delay offset of every preset.
The extra hypothesis `⌈…⌉ ≤ 2^31` delimits the domain on which the C
`(uint32_t)` conversion of the `ceil` is defined behaviour (rates up to
≈ 963 MHz). -/
theorem claim_C5 : ∀ r : ℚ, 2 ≤ r → ⌈(49184 : ℚ) * (r / 22050)⌉₊ ≤ 2 ^ 31 →
    ∀ e : PsxReverb, psxInstantiate r = some e →
    (∃ L, e.spu_buffer_count = 2 ^ L) ∧
    ⌈(49184 : ℚ) * (r / 22050)⌉₊ ≤ e.spu_buffer_count ∧
    (∀ p : ℕ, p < 10 → ∀ v ∈ offsetsList (psxDerive p r), v < e.spu_buffer_count) := by
  intro r hr hbound e he
  obtain ⟨L, hL31, hcount, hxle, hmask⟩ := instantiate_count hr hbound he
  refine ⟨⟨L, hcount⟩, ?_, derive_offsets_lt hr hbound he⟩
  rw [hcount]
  exact hxle

/-- C5 witness — 22050 Hz: buffer of `2^16 = 65536 ≥ 49184` cells. -/
theorem claim_C5_witness :
    ((2 : ℚ) ≤ 22050 ∧ ⌈(49184 : ℚ) * ((22050 : ℚ) / 22050)⌉₊ ≤ 2 ^ 31 ∧
      psxInstantiate 22050 = some e22050) ∧
    (∃ L, e22050.spu_buffer_count = 2 ^ L) ∧
    ⌈(49184 : ℚ) * ((22050 : ℚ) / 22050)⌉₊ ≤ e22050.spu_buffer_count :=
  ⟨⟨by norm_num, by norm_num, inst22050⟩,
    (claim_C5 22050 (by norm_num) (by norm_num) e22050 inst22050).1,
    (claim_C5 22050 (by norm_num) (by norm_num) e22050 inst22050).2.1⟩

/-- C2 — delay-buffer addressing safety.  With the mask `2^L - 1`
(`L ≤ 32`, as produced by construction): (1) every `mem(idx)` access lands on
cell `(idx + cursor) mod 2^L`, strictly inside the buffer; (2) a negative
effective offset `base - k` computed in wrapping `uint32_t` arithmetic (any
magnitude `k` below the buffer size) is congruent to the signed value
`base + cursor - k` modulo the size, because the size divides `2^32`; (3) a
whole `run` loop iteration never writes any cell at or beyond the buffer
size — the hot path stays in bounds. -/
theorem claim_C2 :
    (∀ L : ℕ, L ≤ 32 → ∀ cur idx : ℕ,
        memIdx cur (2 ^ L - 1) idx = (idx + cur) % 2 ^ L ∧
        memIdx cur (2 ^ L - 1) idx < 2 ^ L) ∧
    (∀ L : ℕ, L ≤ 32 → ∀ cur base k : ℕ, k < 2 ^ L →
        (memIdx cur (2 ^ L - 1) (u32sub base k) : ℤ)
          = ((base : ℤ) + (cur : ℤ) - (k : ℤ)) % (2 : ℤ) ^ L) ∧
    (∀ rev : PsxReverb, ∀ L : ℕ, L ≤ 32 →
        rev.spu_buffer_count_mask = 2 ^ L - 1 →
        ∀ cw cd cm lI rI : ℚ, ∀ i, 2 ^ L ≤ i →
        (runStep rev cw cd cm lI rI).1.spu_buffer i = rev.spu_buffer i) := by
  refine ⟨?_, ?_, ?_⟩
  · intro L hL cur idx
    exact ⟨memIdx_eq_mod hL, memIdx_lt L cur idx hL⟩
  · intro L hL cur base k hk
    exact memIdx_sub_int L cur base k hL
      (lt_of_lt_of_le hk (Nat.pow_le_pow_right (by omega) hL))
  · intro rev L hL hmask cw cd cm lI rI i hi
    have hframe := spuStep_frame rev.params rev.BufferAddress
      hL rev.spu_buffer lI rI i hi
    show (spuStep rev.params rev.BufferAddress rev.spu_buffer_count_mask
        rev.spu_buffer lI rI).1 i = rev.spu_buffer i
    rw [hmask]
    exact hframe

/-- C2 witness — `L = 16`, cursor 3: offset 5 lands on cell 8; the
wrapped offset `0 - 1` lands on cell `(0 + 3 - 1) mod 65536 = 2`. -/
theorem claim_C2_witness :
    ((16 : ℕ) ≤ 32 ∧ (1 : ℕ) < 2 ^ 16) ∧
    memIdx 3 (2 ^ 16 - 1) 5 = (5 + 3) % 2 ^ 16 ∧
    (memIdx 3 (2 ^ 16 - 1) (u32sub 0 1) : ℤ)
      = ((0 : ℤ) + (3 : ℤ) - (1 : ℤ)) % (2 : ℤ) ^ 16 :=
  ⟨⟨by decide, by decide⟩, (claim_C2.1 16 (by decide) 3 5).1,
    claim_C2.2.1 16 (by decide) 3 0 1 (by decide)⟩

/-- C3 counterexample — the claim fails for preset 9 ("Off"), which loads
successfully yet derives `dAPF1 = 0` (its raw `dAPF1` register is `0x0000`),
so the allpass-1 write and read addresses coincide there. -/
theorem claim_C3_cex :
    psxPresetLoad testEngine 9 = some offEngine ∧
    offEngine.params.dAPF1 = 0 ∧ ¬ (0 < (psxDerive 9 (22050 : ℚ)).dAPF1) := by
  have h : (psxDerive 9 (22050 : ℚ)).dAPF1 = 0 := by
    show scaleOff (presetReg 9 0) ((22050 : ℚ) / 22050) = 0
    have h0 : presetReg 9 0 = 0 := by decide
    rw [h0, scaleOff_eq]
    norm_num
  exact ⟨rfl, h, by omega⟩

/-- C3 (amended) — for every preset whose raw `dAPF1` register is nonzero
(indices 0–8; index 9 "Off" has `dAPF1 = 0`) and every sample rate
`r ≥ 22050/4` (so the scaled delay cannot round down to zero — this includes
all standard audio rates), the derived `dAPF1` is strictly positive, the
allpass-1 write address `mLAPF1` and read address `mLAPF1 - dAPF1` fall on
distinct buffer cells, and reading the delayed tap after the write returns
the old cell value, not the value just written. -/
theorem claim_C3_amended :
    ∀ r : ℚ, (11025 : ℚ) / 2 ≤ r → ⌈(49184 : ℚ) * (r / 22050)⌉₊ ≤ 2 ^ 31 →
    ∀ e : PsxReverb, psxInstantiate r = some e →
    ∀ p : ℕ, p < 9 →
    0 < (psxDerive p r).dAPF1 ∧
    (∀ cur : ℕ, ∀ buf : ℕ → ℚ, ∀ v : ℚ,
      memIdx cur e.spu_buffer_count_mask
          (u32sub (psxDerive p r).mLAPF1 (psxDerive p r).dAPF1)
        ≠ memIdx cur e.spu_buffer_count_mask (psxDerive p r).mLAPF1 ∧
      bufWrite buf (memIdx cur e.spu_buffer_count_mask (psxDerive p r).mLAPF1) v
          (memIdx cur e.spu_buffer_count_mask
            (u32sub (psxDerive p r).mLAPF1 (psxDerive p r).dAPF1))
        = buf (memIdx cur e.spu_buffer_count_mask
            (u32sub (psxDerive p r).mLAPF1 (psxDerive p r).dAPF1))) := by
  intro r hr hbound e he p hp
  have hr2 : (2 : ℚ) ≤ r := by linarith
  obtain ⟨L, hL31, hcount, hxle, hmask⟩ := instantiate_count hr2 hbound he
  have hL32 : L ≤ 32 := by omega
  have hs4 : (1 : ℚ) / 4 ≤ r / 22050 := by linarith
  have hd1 : 0 < (psxDerive p r).dAPF1 := by
    show 0 < scaleOff (presetReg p 0) (r / 22050)
    exact scaleOff_pos (presetReg_dAPF1_pos p hp) hs4
  refine ⟨hd1, ?_⟩
  intro cur buf v
  have hp10 : p < 10 := by omega
  have hd_mem : (psxDerive p r).dAPF1 ∈ offsetsList (psxDerive p r) := by
    simp [offsetsList]
  have hdlt := derive_offsets_lt hr2 hbound he p hp10 _ hd_mem
  rw [hcount] at hdlt
  have h2L : (2 : ℕ) ^ L ≤ 2 ^ 31 := Nat.pow_le_pow_right (by omega) hL31
  have hd32 : (psxDerive p r).dAPF1 < 2 ^ 32 := by omega
  have h1 := memIdx_sub_int L cur (psxDerive p r).mLAPF1 (psxDerive p r).dAPF1
    hL32 hd32
  have h2 : (memIdx cur (2 ^ L - 1) (psxDerive p r).mLAPF1 : ℤ)
      = (((psxDerive p r).mLAPF1 : ℤ) + cur) % (2 : ℤ) ^ L := by
    rw [memIdx_eq_mod hL32, Int.natCast_mod]
    push_cast
    ring_nf
  have hne : memIdx cur (2 ^ L - 1) (u32sub (psxDerive p r).mLAPF1 (psxDerive p r).dAPF1)
      ≠ memIdx cur (2 ^ L - 1) (psxDerive p r).mLAPF1 := by
    intro heq
    have hcast : (((psxDerive p r).mLAPF1 : ℤ) + cur - (psxDerive p r).dAPF1) % (2 : ℤ) ^ L
        = (((psxDerive p r).mLAPF1 : ℤ) + cur) % (2 : ℤ) ^ L := by
      rw [← h1, ← h2, heq]
    have hmodeq : (((psxDerive p r).mLAPF1 : ℤ) + cur - (psxDerive p r).dAPF1)
        ≡ (((psxDerive p r).mLAPF1 : ℤ) + cur) [ZMOD (2 : ℤ) ^ L] := hcast
    rw [Int.modEq_iff_dvd] at hmodeq
    have hsimp : ((((psxDerive p r).mLAPF1 : ℤ) + cur)
        - (((psxDerive p r).mLAPF1 : ℤ) + cur - (psxDerive p r).dAPF1))
        = ((psxDerive p r).dAPF1 : ℤ) := by ring
    rw [hsimp] at hmodeq
    have hdvd : 2 ^ L ∣ (psxDerive p r).dAPF1 := by exact_mod_cast hmodeq
    have := Nat.le_of_dvd hd1 hdvd
    omega
  rw [hmask]
  refine ⟨hne, ?_⟩
  simp only [bufWrite]
  exact if_neg hne

/-- C3 (amended) witness — preset 0 at 22050 Hz: `dAPF1 = 500 > 0`. -/
theorem claim_C3_witness :
    ((11025 : ℚ) / 2 ≤ 22050 ∧ ⌈(49184 : ℚ) * ((22050 : ℚ) / 22050)⌉₊ ≤ 2 ^ 31 ∧
      psxInstantiate 22050 = some e22050 ∧ (0 : ℕ) < 9) ∧
    0 < (psxDerive 0 22050).dAPF1 :=
  ⟨⟨by norm_num, by norm_num, inst22050, by decide⟩,
    (claim_C3_amended 22050 (by norm_num) (by norm_num) e22050 inst22050 0 (by decide)).1⟩

/-- C9 (amended) witness — reset applied to the concrete preset-5 engine. -/
theorem claim_C9_witness : ∃ rev',
    psxActivate testEngine5 = some rev' ∧
    rev'.preset = 0 ∧
    rev'.params = psxDerive 0 testEngine5.rate ∧
    rev'.wet = 1 ∧ rev'.dry = 1 ∧ rev'.master = 1 ∧
    rev'.BufferAddress = 0 ∧ (∀ i, rev'.spu_buffer i = 0) :=
  claim_C9_amended testEngine5
